import Mathlib

/-!
Shallow embedding of the `remotelist` Go package (`src/main.go`).

The package maintains an in-memory set of string records (`map[string]struct{}`
in Go), populated from a local cache file that is refreshed from a remote URL
when stale.  We model:

  * the record set as a `Finset String` (Go's map keys form a set; iteration
    order is arbitrary and all query results are sorted before being returned);
  * the string helpers from Go's `strings` package that the source uses
    (`ToLower`, `EqualFold`, `TrimSpace`, `HasPrefix`, `Contains`,
    `Split(s, "\n")`), restricted to ASCII case folding / ASCII whitespace,
    which is all the claims exercise;
  * the filesystem state seen by `download` as an `Option FileInfo`
    (`os.Stat` error means the file is absent), and the HTTP transport and
    write outcome as an explicit environment record;
  * `download`, `init` and `New` as pure functions over those states.

The mutex in the Go source only serialises the operations; it has no effect on
their sequential semantics and is not modelled.
-/

namespace Remotelist

/-- ASCII lower-casing of a single character, modelling what `strings.ToLower`
does on the ASCII range (the only range the claims exercise). -/
def asciiLowerChar (c : Char) : Char :=
  if 'A' ≤ c ∧ c ≤ 'Z' then Char.ofNat (c.toNat + 32) else c

/-- Models Go `strings.ToLower` (restricted to ASCII case mapping). -/
def goToLower (s : String) : String :=
  ⟨s.data.map asciiLowerChar⟩

/-- Models Go `strings.EqualFold` (restricted to ASCII simple case folding):
case-insensitive equality of the two strings. -/
def goEqualFold (a b : String) : Bool :=
  goToLower a == goToLower b

/-- Go's `unicode.IsSpace` on the ASCII range: the whitespace characters
`strings.TrimSpace` strips (space, tab, newline, vertical tab, form feed,
carriage return). -/
def isSpaceChar (c : Char) : Bool :=
  c == ' ' || c == '\t' || c == '\n' || c == '\x0b' || c == '\x0c' || c == '\r'

/-- Models Go `strings.TrimSpace`: drop leading and trailing whitespace. -/
def trimSpace (s : String) : String :=
  ⟨((s.data.dropWhile isSpaceChar).reverse.dropWhile isSpaceChar).reverse⟩

/-- `isPrefixList p s` models Go `strings.HasPrefix(s, p)` on the underlying
character lists. -/
def isPrefixList : List Char → List Char → Bool
  | [], _ => true
  | _ :: _, [] => false
  | a :: as, b :: bs => a == b && isPrefixList as bs

/-- Models Go `strings.HasPrefix(s, p)`. -/
def goHasPrefixStr (s p : String) : Bool :=
  isPrefixList p.data s.data

/-- `containsList s p` models Go `strings.Contains(s, p)`: `p` occurs as a
contiguous substring of `s`. -/
def containsList : List Char → List Char → Bool
  | s, p =>
    isPrefixList p s ||
      match s with
      | [] => false
      | _ :: t => containsList t p

/-- Models Go `strings.Contains(s, p)`. -/
def goContainsStr (s p : String) : Bool :=
  containsList s.data p.data

/-- Models Go `strings.Split(s, "\n")`: the list of segments of `s` between
newline characters (`Split("", "\n") = [""]`, matching Go). -/
def splitNL : List Char → List (List Char)
  | [] => [[]]
  | c :: rest =>
    if c = '\n' then [] :: splitNL rest
    else
      match splitNL rest with
      | [] => [[c]]
      | h :: t => (c :: h) :: t

/-- The lines of a file's content, as `strings.Split(string(fileData), "\n")`
produces them in `init`. -/
def splitLines (s : String) : List String :=
  (splitNL s.data).map (fun l => ⟨l⟩)

/-- A `DataLineFunc` (per-line processor): returns the transformed line and
whether to include it. -/
def DataLineFunc := String → String × Bool

/-- A `DataFilterFunc`: transforms the downloaded payload before it is saved. -/
def DataFilterFunc := String → String

/-- `DefaultDataLineProcessFunc` from the source: returns the input line and
includes it unless it starts with `#` or `//` or is empty. -/
def DefaultDataLineProcessFunc : DataLineFunc := fun line =>
  (line, !(goHasPrefixStr line "#" || goHasPrefixStr line "//" || line.data.length == 0))

/-- `Add` from the source: trims whitespace from `value` and inserts the result
into the record set (`rl.records[value] = struct{}{}` — set insertion). -/
def Add (records : Finset String) (value : String) : Finset String :=
  insert (trimSpace value) records

/-- `List` from the source: every record, collected and sorted ascending with
`sort.Strings` before being returned. -/
def ListRecords (records : Finset String) : List String :=
  records.sort (· ≤ ·)

/-- `DefaultSearchFunc` from the source: lower-case the term, collect every
record whose lower-cased form contains it, and sort the results. -/
def DefaultSearchFunc (records : Finset String) (term : String) : List String :=
  (records.filter
    (fun rec => goContainsStr (goToLower rec) (goToLower term) = true)).sort (· ≤ ·)

/-- `DefaultHasFunc` from the source: lower-case the term, then report whether
some record is `EqualFold`-equal to it. -/
def DefaultHasFunc (records : Finset String) (term : String) : Prop :=
  ∃ rec ∈ records, goEqualFold rec (goToLower term) = true

instance (records : Finset String) (term : String) :
    Decidable (DefaultHasFunc records term) :=
  Finset.decidableExistsAndFinset

/-- The per-line loop of `init`: for each line, when a line processor is
configured it is invoked, and on `include = true` the transformed line is
`Add`ed to the record set. -/
def loadLines (fn : Option DataLineFunc) : List String → Finset String → Finset String
  | [], records => records
  | line :: rest, records =>
    match fn with
    | none => loadLines fn rest records
    | some f =>
      loadLines fn rest (if (f line).2 then Add records (f line).1 else records)

/-- `init` from the source, given that the local file read succeeded with
content `fileData`: split into lines and process each one, starting from the
empty record set the constructor installed. -/
def initRecords (fn : Option DataLineFunc) (fileData : String) : Finset String :=
  loadLines fn (splitLines fileData) ∅

/-- What `os.Stat` + `os.ReadFile` observe about the local cache file:
modification time (as an integer timestamp), permission bits, and content.
`os.Stat` failing is modelled as the file being absent (`Option`). -/
structure FileInfo where
  modTime : Int
  perm : Nat
  content : String
deriving DecidableEq

/-- The outside world `download` interacts with: the current time (`time.Now`,
so `time.Since t = now - t`), the outcome of `http.Get` (`none` models a
connection error; otherwise a status code, whether `io.ReadAll` on the body
succeeds, and the body bytes), and whether `os.WriteFile` succeeds. -/
structure Env where
  now : Int
  connOk : Bool
  statusCode : Nat
  bodyOk : Bool
  body : String
  writeOk : Bool
deriving DecidableEq

/-- The distinct error cases `download` reports (each a distinct
`fmt.Errorf` message in the source). -/
inductive DownloadError where
  | connError
  | statusError (code : Nat)
  | readError
  | writeError
deriving DecidableEq

/-- The `needsDownload` computation at the top of `download`: `true` unless
the file exists and `time.Since(modTime) < maxAge`. -/
def needsDownload (maxAge : Int) (now : Int) (fs : Option FileInfo) : Bool :=
  match fs with
  | none => true
  | some info => !decide (now - info.modTime < maxAge)

/-- `download` from the source, as a function from the environment and the
local-file state to an optional error together with the local-file state after
the call.  On the fresh path and on every transport-failure path the file is
returned unchanged (the source writes nothing there).  A successful write
replaces the file with the (optionally `DataFilterFunc`-filtered) body, with
the permission policy of the source: reuse the stat'ed permissions when the
file existed, else `0644`.  (A failed `os.WriteFile` may leave a partial file
on a real system; no claim depends on the file state after a write error, and
we return the prior state there.) -/
def download (maxAge : Int) (fnDataFilter : Option DataFilterFunc) (env : Env)
    (fs : Option FileInfo) : Option DownloadError × Option FileInfo :=
  if needsDownload maxAge env.now fs then
    if !env.connOk then (some .connError, fs)
    else if env.statusCode ≠ 200 then (some (.statusError env.statusCode), fs)
    else if !env.bodyOk then (some .readError, fs)
    else
      let permissions : Nat :=
        match fs with
        | some info => info.perm
        | none => 0o644
      let data :=
        match fnDataFilter with
        | none => env.body
        | some f => f env.body
      if env.writeOk then (none, some ⟨env.now, permissions, data⟩)
      else (some .writeError, fs)
  else (none, fs)

/-- The errors `New` can return: a download failure, or `init` failing to read
the local file. -/
inductive NewError where
  | downloadFailed (e : DownloadError)
  | readFailed
deriving DecidableEq

/-- The part of the constructed `RemoteList` the claims observe: its record
set.  The matcher/search configuration is immutable and already modelled by
the standalone default functions. -/
structure RL where
  records : Finset String
deriving DecidableEq

/-- `New` from the source: build the instance with an empty record set,
substitute `DefaultDataLineProcessFunc` when no line processor was supplied,
run `download`, and on download failure return `(nil, err)`.  Otherwise the
source returns `rl, rl.init()`: the instance pointer is returned in either
case, and `init`'s error (a failed `os.ReadFile`, modelled as `readOk = false`
or the file being absent) is returned alongside it, with the record set left
as `init` left it (empty, since the read failure precedes the line loop). -/
def New (maxAge : Int) (fnDataFilter : Option DataFilterFunc)
    (fnDataLine : Option DataLineFunc) (env : Env) (readOk : Bool)
    (fs : Option FileInfo) : Option RL × Option NewError :=
  let fnLine : Option DataLineFunc :=
    some (fnDataLine.getD DefaultDataLineProcessFunc)
  match download maxAge fnDataFilter env fs with
  | (some e, _) => (none, some (.downloadFailed e))
  | (none, fs2) =>
    match fs2, readOk with
    | some info, true => (some ⟨initRecords fnLine info.content⟩, none)
    | _, _ => (some ⟨∅⟩, some .readFailed)

/-! ## Helper lemmas -/

/-- Records present before the line loop of `init` runs are still present
afterwards: `loadLines` only inserts. -/
theorem mem_loadLines_mono (fn : Option DataLineFunc) (lines : List String)
    (s0 : Finset String) (r : String) (h : r ∈ s0) :
    r ∈ loadLines fn lines s0 := by
  induction lines generalizing s0 with
  | nil => simpa [loadLines] using h
  | cons l rest ih =>
    cases fn with
    | none => simpa [loadLines] using ih _ h
    | some f =>
      simp only [loadLines]
      by_cases hok : (f l).2
      · exact ih _ (by simp [hok, Add, Finset.mem_insert, h])
      · simpa [hok] using ih _ h

/-- If some line of the file is accepted by the line processor, the trimmed
transformed line is in the record set `loadLines` produces. -/
theorem mem_loadLines_of_processed (f : DataLineFunc) (lines : List String)
    (s0 : Finset String) (l : String) (hl : l ∈ lines) (hok : (f l).2 = true) :
    trimSpace (f l).1 ∈ loadLines (some f) lines s0 := by
  induction lines generalizing s0 with
  | nil => cases hl
  | cons a rest ih =>
    rcases List.mem_cons.mp hl with rfl | hmem
    · simp only [loadLines, hok, if_true]
      exact mem_loadLines_mono _ _ _ _ (by simp [Add, Finset.mem_insert])
    · simp only [loadLines]
      by_cases hko : (f a).2 <;> simp [hko, ih _ hmem]

/-- Branch characterization of `download`: connection failure. -/
theorem download_conn_fail {maxAge : Int} {fnDataFilter : Option DataFilterFunc}
    {env : Env} {fs : Option FileInfo}
    (hneed : needsDownload maxAge env.now fs = true) (hc : env.connOk = false) :
    download maxAge fnDataFilter env fs = (some .connError, fs) := by
  unfold download
  rw [hneed]
  simp [hc]

/-- Branch characterization of `download`: non-200 status. -/
theorem download_status_fail {maxAge : Int} {fnDataFilter : Option DataFilterFunc}
    {env : Env} {fs : Option FileInfo}
    (hneed : needsDownload maxAge env.now fs = true) (hc : env.connOk = true)
    (hs : env.statusCode ≠ 200) :
    download maxAge fnDataFilter env fs =
      (some (.statusError env.statusCode), fs) := by
  unfold download
  rw [hneed]
  simp [hc, hs]

/-- Branch characterization of `download`: body-read failure. -/
theorem download_read_fail {maxAge : Int} {fnDataFilter : Option DataFilterFunc}
    {env : Env} {fs : Option FileInfo}
    (hneed : needsDownload maxAge env.now fs = true) (hc : env.connOk = true)
    (hs : env.statusCode = 200) (hb : env.bodyOk = false) :
    download maxAge fnDataFilter env fs = (some .readError, fs) := by
  unfold download
  rw [hneed]
  simp [hc, hs, hb]

/-- Branch characterization of `download`: write failure. -/
theorem download_write_fail {maxAge : Int} {fnDataFilter : Option DataFilterFunc}
    {env : Env} {fs : Option FileInfo}
    (hneed : needsDownload maxAge env.now fs = true) (hc : env.connOk = true)
    (hs : env.statusCode = 200) (hb : env.bodyOk = true)
    (hw : env.writeOk = false) :
    download maxAge fnDataFilter env fs = (some .writeError, fs) := by
  unfold download
  rw [hneed]
  cases fs <;> simp [hc, hs, hb, hw]

/-- Branch characterization of `download`: a fetch that succeeds end to end
writes the (optionally filtered) body with the source's permission policy and
stamps the file with the current time. -/
theorem download_success {maxAge : Int} {fnDataFilter : Option DataFilterFunc}
    {env : Env} {fs : Option FileInfo}
    (hneed : needsDownload maxAge env.now fs = true) (hc : env.connOk = true)
    (hs : env.statusCode = 200) (hb : env.bodyOk = true)
    (hw : env.writeOk = true) :
    download maxAge fnDataFilter env fs =
      (none, some ⟨env.now, (fs.map FileInfo.perm).getD 0o644,
        match fnDataFilter with
        | none => env.body
        | some f => f env.body⟩) := by
  unfold download
  rw [hneed]
  cases fs <;> simp [hc, hs, hb, hw]

/-! ## Claim theorems -/

/-- Claim C8: with the default per-line processor, loading a local file whose
content consists of the lines "# comment", "", "1.2.3.4", "// note",
"5.6.7.8" produces the record set containing exactly "1.2.3.4" and
"5.6.7.8": the default processor drops empty lines and lines starting with
"#" or "//" and passes every other line through unchanged. -/
theorem claim_C8_default_line_filter :
    initRecords (some DefaultDataLineProcessFunc)
      "# comment\n\n1.2.3.4\n// note\n5.6.7.8" =
      ({"1.2.3.4", "5.6.7.8"} : Finset String) := by decide

/-- Claim C9: with the default matchers and the record "Example.com" present,
`Has "example.com"` holds (default exact match is case-insensitive equality)
and `Search "EXAM"` returns exactly `["Example.com"]` (default search is
case-insensitive substring containment). -/
theorem claim_C9_default_has_search_case_insensitive :
    DefaultHasFunc {"Example.com"} "example.com" ∧
    DefaultSearchFunc {"Example.com"} "EXAM" = ["Example.com"] := by
  constructor
  · decide
  · have h : goContainsStr (goToLower "Example.com") (goToLower "EXAM") = true := by
      decide
    simp [DefaultSearchFunc, Finset.filter_singleton, h]

/-- Claim C5: `Add x` twice leaves the record set equal to `Add x` once, with
exactly one record equal to the trimmed `x`, and the length of `List()` is
unchanged by the second `Add x` (duplicate insertion is a no-op). -/
theorem claim_C5_add_idempotent (records : Finset String) (x : String) :
    Add (Add records x) x = Add records x ∧
    ((Add (Add records x) x).filter (· = trimSpace x)).card = 1 ∧
    (ListRecords (Add (Add records x) x)).length =
      (ListRecords (Add records x)).length := by
  refine ⟨by simp [Add, Finset.insert_idem], ?_, ?_⟩
  · simp only [Add, Finset.insert_idem]
    rw [Finset.filter_eq', if_pos (Finset.mem_insert_self _ _)]
    simp
  · simp [Add, Finset.insert_idem]

/-- Claim C4: `List()` and the default `Search` always return their results in
ascending order, and the result of `List()` does not depend on the order in
which two records were inserted. -/
theorem claim_C4_sorted_output (records : Finset String) (term a b : String) :
    (ListRecords records).Sorted (· ≤ ·) ∧
    (DefaultSearchFunc records term).Sorted (· ≤ ·) ∧
    ListRecords (Add (Add records a) b) = ListRecords (Add (Add records b) a) ∧
    DefaultSearchFunc (Add (Add records a) b) term =
      DefaultSearchFunc (Add (Add records b) a) term := by
  refine ⟨Finset.sort_sorted _ _, Finset.sort_sorted _ _, ?_, ?_⟩
  · simp only [ListRecords, Add]
    rw [Finset.Insert.comm]
  · simp only [DefaultSearchFunc, Add]
    rw [Finset.Insert.comm]

/-- Claim C2 counterexample: the filter invariant does not survive `Add`.
`Add "#x"` puts "#x" into the (empty) record set even though the configured
default per-line filter returns "exclude" for "#x": a candidate the filter
rejects can enter the set. -/
theorem claim_C2_counterexample :
    "#x" ∈ Add ∅ "#x" ∧ (DefaultDataLineProcessFunc "#x").2 = false := by decide

/-- Claim C2 (amended): the filter invariant holds for the initial load —
every record the line loop inserts comes from some line of the file that the
configured per-line filter accepted (and equals that line's transform,
trimmed); a line the filter rejects never enters the set during load.  `Add`,
by contrast, inserts its trimmed argument without consulting the filter. -/
theorem claim_C2_load_respects_filter (f : DataLineFunc) (lines : List String)
    (s0 : Finset String) (r : String)
    (hr : r ∈ loadLines (some f) lines s0) :
    r ∈ s0 ∨ ∃ line ∈ lines, (f line).2 = true ∧ r = trimSpace (f line).1 := by
  induction lines generalizing s0 with
  | nil => exact Or.inl (by simpa [loadLines] using hr)
  | cons l rest ih =>
    simp only [loadLines] at hr
    rcases ih _ hr with hmem | ⟨line, hline, hok, heq⟩
    · by_cases hok : (f l).2
      · rw [if_pos hok] at hmem
        rcases Finset.mem_insert.mp hmem with heq | hs0
        · exact Or.inr ⟨l, List.mem_cons_self _ _, hok, heq⟩
        · exact Or.inl hs0
      · rw [if_neg hok] at hmem
        exact Or.inl hmem
    · exact Or.inr ⟨line, List.mem_cons_of_mem _ hline, hok, heq⟩

/-- Witness for the amended claim C2 at a concrete input. -/
theorem claim_C2_load_respects_filter_witness :
    "a" ∈ (∅ : Finset String) ∨
      ∃ line ∈ ["a"], (DefaultDataLineProcessFunc line).2 = true ∧
        "a" = trimSpace (DefaultDataLineProcessFunc line).1 :=
  claim_C2_load_respects_filter DefaultDataLineProcessFunc ["a"] ∅ "a" (by decide)

/-- Claim C3: `download` attempts a fetch iff the local file is absent or its
age (`now - modTime`) is at least `maxAge`; when the file exists and its age
is strictly below `maxAge`, `download` returns success with the file
untouched, for every environment (so no fetch and no write occur). -/
theorem claim_C3_staleness_gate (maxAge : Int)
    (fnDataFilter : Option DataFilterFunc) (env : Env) (fs : Option FileInfo) :
    (needsDownload maxAge env.now fs = true ↔
      fs = none ∨ ∃ info, fs = some info ∧ maxAge ≤ env.now - info.modTime) ∧
    (needsDownload maxAge env.now fs = false →
      download maxAge fnDataFilter env fs = (none, fs)) := by
  constructor
  · cases fs with
    | none => simp [needsDownload]
    | some info => simp [needsDownload, Int.not_lt]
  · intro h
    unfold download
    rw [h]
    simp

/-- Witness for claim C3: a file of age 5 with max age 10 is fresh, and
`download` succeeds without touching it even in an environment whose fetch
would fail in every way. -/
theorem claim_C3_staleness_gate_witness :
    download 10 none ⟨5, false, 500, false, "", false⟩ (some ⟨0, 420, "x"⟩) =
      (none, some ⟨0, 420, "x"⟩) :=
  (claim_C3_staleness_gate 10 none ⟨5, false, 500, false, "", false⟩
    (some ⟨0, 420, "x"⟩)).2 (by decide)

/-- Claim C6: when `download` actually fetches and persists, the written
file's permission bits are the previously stat'ed bits when the file existed,
and the default `0644` when it did not. -/
theorem claim_C6_permission_policy (maxAge : Int)
    (fnDataFilter : Option DataFilterFunc) (env : Env) (fs : Option FileInfo)
    (info2 : FileInfo)
    (hneed : needsDownload maxAge env.now fs = true)
    (h : download maxAge fnDataFilter env fs = (none, some info2)) :
    info2.perm = (fs.map FileInfo.perm).getD 0o644 := by
  by_cases hc : env.connOk
  · by_cases hs : env.statusCode = 200
    · by_cases hb : env.bodyOk
      · by_cases hw : env.writeOk
        · rw [download_success hneed hc hs hb hw] at h
          simp only [Prod.mk.injEq, Option.some.injEq, true_and] at h
          rw [← h]
        · rw [download_write_fail hneed hc hs hb
            (Bool.eq_false_iff.mpr hw)] at h
          simp at h
      · rw [download_read_fail hneed hc hs (Bool.eq_false_iff.mpr hb)] at h
        simp at h
    · rw [download_status_fail hneed hc hs] at h
      simp at h
  · rw [download_conn_fail hneed (Bool.eq_false_iff.mpr hc)] at h
    simp at h

/-- Witness for claim C6: a successful fetch with no pre-existing file writes
with permission bits `0644`. -/
theorem claim_C6_permission_policy_witness :
    (FileInfo.mk 7 420 "body").perm = 420 :=
  claim_C6_permission_policy 10 none ⟨7, true, 200, true, "body", true⟩ none
    ⟨7, 420, "body"⟩ (by decide) (by decide)

/-- Claim C7: when a fetch is attempted and the transport fails — connection
error, non-200 status, or body-read failure — `download` reports the
corresponding distinct error and returns the local file state unchanged. -/
theorem claim_C7_transport_failure_untouched (maxAge : Int)
    (fnDataFilter : Option DataFilterFunc) (env : Env) (fs : Option FileInfo)
    (hneed : needsDownload maxAge env.now fs = true) :
    (env.connOk = false →
      download maxAge fnDataFilter env fs = (some .connError, fs)) ∧
    (env.connOk = true → env.statusCode ≠ 200 →
      download maxAge fnDataFilter env fs =
        (some (.statusError env.statusCode), fs)) ∧
    (env.connOk = true → env.statusCode = 200 → env.bodyOk = false →
      download maxAge fnDataFilter env fs = (some .readError, fs)) := by
  unfold download
  rw [hneed]
  exact ⟨fun hc => by simp [hc], fun hc hs => by simp [hc, hs],
    fun hc hs hb => by simp [hc, hs, hb]⟩

/-- Witness for claim C7: with a fresh-less (absent) local file and a downed
transport, `download` reports a connection error and leaves the file absent. -/
theorem claim_C7_transport_failure_untouched_witness :
    download 10 none ⟨0, false, 0, false, "", false⟩ none =
      (some .connError, none) :=
  (claim_C7_transport_failure_untouched 10 none ⟨0, false, 0, false, "", false⟩
    none (by decide)).1 (by decide)

/-- Claim C10: a non-empty whitespace-only line is included by the default
per-line processor (it is non-empty and starts with neither "#" nor "//"),
`Add` trims it to the empty string, and so loading a file containing such a
line puts "" into the record set, where it also shows up in `List()`. -/
theorem claim_C10_whitespace_line_inserts_empty (s content : String)
    (hne : s ≠ "") (hws : ∀ c ∈ s.data, isSpaceChar c = true)
    (hmem : s ∈ splitLines content) :
    (DefaultDataLineProcessFunc s).2 = true ∧ trimSpace s = "" ∧
    "" ∈ initRecords (some DefaultDataLineProcessFunc) content ∧
    "" ∈ ListRecords (initRecords (some DefaultDataLineProcessFunc) content) := by
  obtain ⟨l⟩ := s
  have hlnil : l ≠ [] := fun h => hne (by simp [h])
  obtain ⟨c, t, rfl⟩ : ∃ c t, l = c :: t := by
    cases l with
    | nil => exact absurd rfl hlnil
    | cons c t => exact ⟨c, t, rfl⟩
  have hc : isSpaceChar c = true := hws c (List.mem_cons_self _ _)
  have hinc : (DefaultDataLineProcessFunc ⟨c :: t⟩).2 = true := by
    have hch : c ≠ '#' := fun h => by subst h; simp [isSpaceChar] at hc
    have hcs : c ≠ '/' := fun h => by subst h; simp [isSpaceChar] at hc
    have h1 : ('#' == c) = false := by
      cases hb : ('#' == c) with
      | false => rfl
      | true => exact absurd (eq_of_beq hb).symm hch
    have h2 : ('/' == c) = false := by
      cases hb : ('/' == c) with
      | false => rfl
      | true => exact absurd (eq_of_beq hb).symm hcs
    show (!(isPrefixList ['#'] (c :: t) || isPrefixList ['/', '/'] (c :: t)
        || ((c :: t).length == 0))) = true
    simp [isPrefixList, h1, h2]
  have htrim : trimSpace ⟨c :: t⟩ = "" := by
    have hdrop : List.dropWhile isSpaceChar (c :: t) = [] := by
      rw [List.dropWhile_eq_nil_iff]
      intro x hx
      exact hws x hx
    simp only [trimSpace, hdrop, List.reverse_nil, List.dropWhile_nil]
  have hload : "" ∈ initRecords (some DefaultDataLineProcessFunc) content := by
    have := mem_loadLines_of_processed DefaultDataLineProcessFunc
      (splitLines content) ∅ ⟨c :: t⟩ hmem hinc
    rwa [show (DefaultDataLineProcessFunc ⟨c :: t⟩).1 = ⟨c :: t⟩ from rfl,
      htrim] at this
  exact ⟨hinc, htrim, hload, (Finset.mem_sort _).mpr hload⟩

/-- Witness for claim C10: the single-space line in the file " " yields the
empty-string record, visible in `List()`. -/
theorem claim_C10_whitespace_line_inserts_empty_witness :
    (DefaultDataLineProcessFunc " ").2 = true ∧ trimSpace " " = "" ∧
    "" ∈ initRecords (some DefaultDataLineProcessFunc) " " ∧
    "" ∈ ListRecords (initRecords (some DefaultDataLineProcessFunc) " ") :=
  claim_C10_whitespace_line_inserts_empty " " " " (by decide) (by decide)
    (by decide)

/-- Claim C1 counterexample: at a configuration whose fetch succeeds but whose
local read fails (`readOk = false`), `New` returns an error — yet also returns
an instance (the pointer handed back is non-nil): a load failure during
initialization does not yield "no instance". -/
theorem claim_C1_counterexample :
    ((New 10 none none ⟨0, true, 200, true, "b", true⟩ false none).2).isSome =
        true ∧
    ((New 10 none none ⟨0, true, 200, true, "b", true⟩ false none).1).isSome =
        true := by decide

/-- Claim C1 (amended): when the fetch step fails, `New` returns the download
error and no instance (`nil`); when the fetch step succeeds but the load step
fails, `New` returns the read error together with a non-nil instance whose
record set is empty — the partially-constructed value is handed back alongside
the error. -/
theorem claim_C1_new_failure_behavior (maxAge : Int)
    (fnDataFilter : Option DataFilterFunc) (fnDataLine : Option DataLineFunc)
    (env : Env) (readOk : Bool) (fs : Option FileInfo) :
    (∀ e fs2, download maxAge fnDataFilter env fs = (some e, fs2) →
      New maxAge fnDataFilter fnDataLine env readOk fs =
        (none, some (.downloadFailed e))) ∧
    (∀ fs2, download maxAge fnDataFilter env fs = (none, fs2) →
      readOk = false ∨ fs2 = none →
      New maxAge fnDataFilter fnDataLine env readOk fs =
        (some ⟨∅⟩, some .readFailed)) := by
  constructor
  · intro e fs2 h
    unfold New
    rw [h]
  · intro fs2 h hfail
    unfold New
    rw [h]
    rcases hfail with rfl | rfl
    · cases fs2 <;> rfl
    · cases readOk <;> rfl

/-- Witness for the amended claim C1: a successful download followed by a
failed local read returns the empty-record instance together with the read
error. -/
theorem claim_C1_new_failure_behavior_witness :
    New 10 none none ⟨3, true, 200, true, "b", true⟩ false none =
      (some ⟨∅⟩, some .readFailed) :=
  (claim_C1_new_failure_behavior 10 none none ⟨3, true, 200, true, "b", true⟩
    false none).2 (some ⟨3, 420, "b"⟩) (by decide) (Or.inl rfl)

end Remotelist
